import Mathlib

/-!
Shallow embedding of the `stat_ts` library (`src/core.py`): a one-shot
aggregator that turns a time-stamped PnL series into a single row of
trading statistics (Sharpe, Sortino, profit factor, Kelly, streaks,
drawdown, ...).

Modelling choices:
* Python floats are modelled by `PyFloat`: a rational number, positive
  infinity, or NaN (the only non-finite values the code can produce).
* Timestamps are modelled at calendar-day granularity (integers), which is
  the granularity at which the code uses them (`resample("1D")`).
* `np.sqrt` restricted to the rational model is passed in as an explicit
  function argument `sq : ℚ → ℚ`; no property of it is assumed anywhere.
  For concrete evaluations `ratSqrt` (exact on perfect squares) is used.
* Python's `round(x, n)` (banker's rounding) is `pyRound`.
* Exceptions (`ZeroDivisionError` from `days_in_year / test_period`,
  `ValueError` from the DataFrame length check and from `np.min` on an
  empty array) are modelled with `Except`.
-/

namespace StatTs

/-- Value of a Python/numpy float as produced by this code: a finite
rational, `+inf` (from the guarded divisions), or `nan` (from `0/0`). -/
inductive PyFloat where
  | fin (q : ℚ)
  | inf
  | nan
deriving DecidableEq, Repr

/-- The `target_type` flag: `"pct"` or `"nom"`. -/
inductive Target where
  | pct
  | nom
deriving DecidableEq, Repr

/-- Scaling factor `100 if target_type == "pct" else 1`. -/
def scaleOf : Target → ℚ
  | Target.pct => 100
  | Target.nom => 1

/-- Column-name suffix: `"%" if target == "pct" else "pp"`. -/
def unitOf : Target → String
  | Target.pct => "%"
  | Target.nom => "pp"

/-- One-row result table: the row label (`idx`) and the ordered list of
column-name/value pairs; `none` is the unset (`None`) marker. -/
structure ResultRow where
  index : ℤ
  cols : List (String × Option PyFloat)
deriving DecidableEq, Repr

/-- Python `int(x)` on a float: truncation toward zero. -/
def intTrunc (q : ℚ) : ℤ :=
  if 0 ≤ q then ⌊q⌋ else ⌈q⌉

/-- Round a rational to the nearest integer, ties to even (the rounding
used by Python's built-in `round`): the fractional part is below, above or
exactly one half according as `2q` compares with `2⌊q⌋ + 1`. -/
def roundHalfEven (q : ℚ) : ℤ :=
  if 2 * q < 2 * (⌊q⌋ : ℚ) + 1 then ⌊q⌋
  else if 2 * (⌊q⌋ : ℚ) + 1 < 2 * q then ⌊q⌋ + 1
  else if ⌊q⌋ % 2 = 0 then ⌊q⌋ else ⌊q⌋ + 1

/-- Python `round(x, n)` for finite values. -/
def pyRound (n : ℕ) (q : ℚ) : ℚ :=
  (roundHalfEven (q * (10 : ℚ) ^ n) : ℚ) / (10 : ℚ) ^ n

/-- Python `round(x, n)` lifted to floats: `round(inf) = inf`,
`round(nan) = nan`. -/
def pyRoundF (n : ℕ) : PyFloat → PyFloat
  | PyFloat.fin q => PyFloat.fin (pyRound n q)
  | PyFloat.inf => PyFloat.inf
  | PyFloat.nan => PyFloat.nan

/-- Multiplication of a float by a positive rational constant
(`win_pct * 100`): infinity and NaN absorb. -/
def mulConstF (x : PyFloat) (c : ℚ) : PyFloat :=
  match x with
  | PyFloat.fin q => PyFloat.fin (q * c)
  | PyFloat.inf => PyFloat.inf
  | PyFloat.nan => PyFloat.nan

/-- Mean of a list of rationals (`Series.mean`); only used on nonempty
lists in the code path. -/
def mean (l : List ℚ) : ℚ := l.sum / (l.length : ℚ)

/-- Population variance (`Series.std(ddof=0)` squared). -/
def popVar (l : List ℚ) : ℚ :=
  mean (l.map (fun x => (x - mean l) ^ 2))

/-- Concrete square root on rationals, exact on perfect squares; used to
instantiate the abstract `sq` parameter in concrete evaluations. -/
def ratSqrt (q : ℚ) : ℚ :=
  (Nat.sqrt q.num.toNat : ℚ) / (Nat.sqrt q.den : ℚ)

/-- Sum of the pnl values falling on day `d`, accumulated left to right
(the per-bucket sum of `resample("1D").sum()`). -/
def sumOnDay (dates : List ℤ) (pnl : List ℚ) (d : ℤ) : ℚ :=
  (dates.zip pnl).foldl (fun acc p => if p.1 = d then acc + p.2 else acc) 0

/-- Embedding of `pd.DataFrame({"pnl": pnl}, index=dates).resample("1D").sum()`
at day granularity: one bar for EVERY calendar day from the minimum to the
maximum date (days with no data get the empty sum 0), in chronological
order, entries on the same day summed. -/
def dailyBars (dates : List ℤ) (pnl : List ℚ) : List ℚ :=
  match dates with
  | [] => []
  | d :: ds =>
    (List.range (ds.foldl max d - ds.foldl min d + 1).toNat).map
      (fun k => sumOnDay (d :: ds) pnl (ds.foldl min d + (k : ℤ)))

/-- Insert a day key into a sorted duplicate-free list of day keys
(helper for the spec-side grouping). -/
def insertSortedNoDup (d : ℤ) : List ℤ → List ℤ
  | [] => [d]
  | a :: t =>
    if d < a then d :: a :: t
    else if d = a then a :: t
    else a :: insertSortedNoDup d t

/-- The distinct calendar-day keys present in the input, in chronological
order (helper for the spec-side grouping). -/
def dayKeys (dates : List ℤ) : List ℤ :=
  dates.foldr insertSortedNoDup []

/-- Daily grouping as the spec words it: one bar per calendar-day key
present in the input, values on the same day summed, keys iterated in
chronological order. -/
def specDailyGroups (dates : List ℤ) (pnl : List ℚ) : List ℚ :=
  (dayKeys dates).map
    (fun d => (((dates.zip pnl).filter (fun p => decide (p.1 = d))).map Prod.snd).sum)

/-- Daily grouping as amended: one bar for every calendar day from the
minimum to the maximum date in chronological order, each bar the sum of
the values falling on that day (zero for days absent from the input). -/
def specDailyFilled (dates : List ℤ) (pnl : List ℚ) : List ℚ :=
  match dates with
  | [] => []
  | d :: ds =>
    (List.range (ds.foldl max d - ds.foldl min d + 1).toNat).map
      (fun k =>
        ((((d :: ds).zip pnl).filter
            (fun p => decide (p.1 = ds.foldl min d + (k : ℤ)))).map Prod.snd).sum)

/-- The sign test `cond = val > 0 if positive else val < 0` from
`_calc_consecutive`. -/
def signMatch (positive : Bool) (v : ℚ) : Bool :=
  if positive then decide (0 < v) else decide (v < 0)

/-- Embedding of `_calc_consecutive`: longest run of consecutive
strictly-positive (resp. strictly-negative) values, via a best/current
fold. -/
def calcConsecutive (series : List ℚ) (positive : Bool) : ℕ :=
  (series.foldl
    (fun s v =>
      if signMatch positive v then (max s.1 (s.2 + 1), s.2 + 1) else (s.1, 0))
    ((0, 0) : ℕ × ℕ)).1

/-- Length of the matching prefix of a list (helper for the streak
specification). -/
def matchPrefixLen (p : ℚ → Bool) (l : List ℚ) : ℕ :=
  (l.takeWhile p).length

/-- Specification of the streak counter, from the claim's words: the
length of the longest run of consecutive values satisfying `p`, i.e. the
maximum over all suffixes of the length of the matching prefix. -/
def longestRun (p : ℚ → Bool) : List ℚ → ℕ
  | [] => 0
  | a :: t => max (matchPrefixLen p (a :: t)) (longestRun p t)

/-- Whether the first element of the list satisfies `p` (false on the
empty list). -/
def headMatch (p : ℚ → Bool) : List ℚ → Bool
  | [] => false
  | a :: _ => p a

/-- Recursive reformulation of the best/current fold with the running
counter as an argument (proof helper for `calcConsecutive`). -/
def runAux (p : ℚ → Bool) : List ℚ → ℕ → ℕ
  | [], _ => 0
  | a :: t, c => if p a then max (c + 1) (runAux p t (c + 1)) else runAux p t 0

/-- Embedding of `np.cumsum`. -/
def cumsum (l : List ℚ) : List ℚ :=
  (l.scanl (· + ·) 0).drop 1

/-- Running maximum with a seed (helper for `np.maximum.accumulate`). -/
def runningMax : ℚ → List ℚ → List ℚ
  | _, [] => []
  | m, a :: t => max m a :: runningMax (max m a) t

/-- Embedding of `np.maximum.accumulate`. -/
def runMax (l : List ℚ) : List ℚ :=
  match l with
  | [] => []
  | a :: t => runningMax a (a :: t)

/-- The pointwise series `cs - np.maximum.accumulate(cs)` with `cs` the
cumulative sum. -/
def ddList (l : List ℚ) : List ℚ :=
  ((cumsum l).zip (runMax (cumsum l))).map (fun p => p.1 - p.2)

/-- Minimum of a list (`np.min`); `none` on the empty list, where numpy
raises `ValueError`. -/
def listMin : List ℚ → Option ℚ
  | [] => none
  | a :: t => some (t.foldl min a)

/-- The drawdown value `np.min(cs - np.maximum.accumulate(cs))`; 0 as an
unreachable default for the empty list (the caller errors out first). -/
def drawdownVal (l : List ℚ) : ℚ :=
  match listMin (ddList l) with
  | some m => m
  | none => 0

/-- The 13 column names in order, with the unit-mode suffix. -/
def colNames (t : Target) : List String :=
  ["sharpe", "sortino", "Kelly, %", "trades/year",
   "return/year, " ++ unitOf t, "return/trade, " ++ unitOf t,
   "PF", "Win, %",
   "Avg Win, " ++ unitOf t, "Avg Loss, " ++ unitOf t,
   "Max wins in row", "Max losses in row",
   "Max DD, " ++ unitOf t]

/-- Embedding of `_empty_row`: the 13 columns, all set to `None`, keyed by
the caller's row id. -/
def emptyRow (idx : ℤ) (t : Target) : ResultRow :=
  { index := idx
    cols :=
      [("sharpe", none), ("sortino", none), ("Kelly, %", none),
       ("trades/year", none),
       ("return/year, " ++ unitOf t, none),
       ("return/trade, " ++ unitOf t, none),
       ("PF", none), ("Win, %", none),
       ("Avg Win, " ++ unitOf t, none),
       ("Avg Loss, " ++ unitOf t, none),
       ("Max wins in row", none), ("Max losses in row", none),
       ("Max DD, " ++ unitOf t, none)] }

/-- The annualization coefficient `days_in_year / test_period`. -/
def annualCoef (test_period days_in_year : ℤ) : ℚ :=
  (days_in_year : ℚ) / (test_period : ℚ)

/-- Count of non-zero raw pnl entries (`np.count_nonzero(pnl)`). -/
def nNonzero (pnl : List ℚ) : ℕ :=
  pnl.countP (fun v => decide (v ≠ 0))

/-- The `trades/year` value `int(np.count_nonzero(pnl) * annual_coef)`. -/
def tradesOf (pnl : List ℚ) (test_period days_in_year : ℤ) : ℤ :=
  intTrunc ((nNonzero pnl : ℚ) * annualCoef test_period days_in_year)

/-- The `total_return` value `pnl.sum() * annual_coef`. -/
def totalReturn (pnl : List ℚ) (test_period days_in_year : ℤ) : ℚ :=
  pnl.sum * annualCoef test_period days_in_year

/-- The `return_per_trade` value, with the explicit 0 override when there
are no non-zero entries. -/
def returnPerTrade (pnl : List ℚ) : ℚ :=
  if nNonzero pnl = 0 then 0 else pnl.sum / (nNonzero pnl : ℚ)

/-- The daily standard deviation `df["pnl"].std(ddof=0)`: square root of
the population variance of the daily bars. -/
def dailyStd (sq : ℚ → ℚ) (dates : List ℤ) (pnl : List ℚ) : ℚ :=
  sq (popVar (dailyBars dates pnl))

/-- The `sharpe` value: `round(mean/std * sqrt(days_in_year), 3)` when the
daily standard deviation is truthy (non-zero), else `np.inf`. -/
def sharpeOf (sq : ℚ → ℚ) (dates : List ℤ) (pnl : List ℚ) (days_in_year : ℤ) : PyFloat :=
  if dailyStd sq dates pnl ≠ 0 then
    PyFloat.fin (pyRound 3 (mean (dailyBars dates pnl) / dailyStd sq dates pnl * sq (days_in_year : ℚ)))
  else PyFloat.inf

/-- The derived series `np.where(df["pnl"] < 0, df["pnl"], 0)`. -/
def negSeries (dates : List ℤ) (pnl : List ℚ) : List ℚ :=
  (dailyBars dates pnl).map (fun x => if x < 0 then x else 0)

/-- The downside deviation `df["pnl_negative"].std(ddof=0)`. -/
def negStd (sq : ℚ → ℚ) (dates : List ℤ) (pnl : List ℚ) : ℚ :=
  sq (popVar (negSeries dates pnl))

/-- The `sortino` value, with the same zero-divisor guard as `sharpe`. -/
def sortinoOf (sq : ℚ → ℚ) (dates : List ℤ) (pnl : List ℚ) (days_in_year : ℤ) : PyFloat :=
  if negStd sq dates pnl ≠ 0 then
    PyFloat.fin (pyRound 3 (mean (dailyBars dates pnl) / negStd sq dates pnl * sq (days_in_year : ℤ)))
  else PyFloat.inf

/-- Sum of the strictly positive daily bars. -/
def positiveSum (dates : List ℤ) (pnl : List ℚ) : ℚ :=
  ((dailyBars dates pnl).filter (fun x => decide (0 < x))).sum

/-- Sum of the strictly negative daily bars. -/
def negativeSum (dates : List ℤ) (pnl : List ℚ) : ℚ :=
  ((dailyBars dates pnl).filter (fun x => decide (x < 0))).sum

/-- The `profit_factor` value `abs(positive_sum / negative_sum)`, `np.inf`
when the negative sum is (falsy) zero. -/
def profitFactor (dates : List ℤ) (pnl : List ℚ) : PyFloat :=
  if negativeSum dates pnl ≠ 0 then
    PyFloat.fin |positiveSum dates pnl / negativeSum dates pnl|
  else PyFloat.inf

/-- Count of strictly positive daily bars (`win_days.sum()`). -/
def winDaysOf (dates : List ℤ) (pnl : List ℚ) : ℕ :=
  (dailyBars dates pnl).countP (fun x => decide (0 < x))

/-- Count of non-zero daily bars (`np.count_nonzero(df["pnl"])`). -/
def nzDaysOf (dates : List ℤ) (pnl : List ℚ) : ℕ :=
  (dailyBars dates pnl).countP (fun x => decide (x ≠ 0))

/-- The win fraction as a rational (meaningful when there is at least one
non-zero daily bar). -/
def dailyWinPct (dates : List ℤ) (pnl : List ℚ) : ℚ :=
  (winDaysOf dates pnl : ℚ) / (nzDaysOf dates pnl : ℚ)

/-- The `win_pct` value `win_days.sum() / np.count_nonzero(df["pnl"])`:
numpy turns the 0/0 case into NaN (with a warning, not an exception). -/
def winPct (dates : List ℤ) (pnl : List ℚ) : PyFloat :=
  if nzDaysOf dates pnl = 0 then PyFloat.nan
  else PyFloat.fin (dailyWinPct dates pnl)

/-- The `kelly` value. The Python guard `if profit_factor` fires only on a
zero (falsy) profit factor: infinity is truthy, in which case
`(1 - win_pct)/inf` evaluates to 0; a NaN `win_pct` propagates. -/
def kellyOf (dates : List ℤ) (pnl : List ℚ) : PyFloat :=
  if profitFactor dates pnl = PyFloat.fin 0 then PyFloat.fin 0
  else
    match winPct dates pnl, profitFactor dates pnl with
    | PyFloat.fin w, PyFloat.fin q => PyFloat.fin (pyRound 2 ((w - (1 - w) / q) * 100))
    | PyFloat.fin w, PyFloat.inf => PyFloat.fin (pyRound 2 (w * 100))
    | _, _ => PyFloat.nan

/-- The non-zero daily bars `df.loc[df["pnl"] != 0, "pnl"]`, in order. -/
def pnlNz (dates : List ℤ) (pnl : List ℚ) : List ℚ :=
  (dailyBars dates pnl).filter (fun x => decide (x ≠ 0))

/-- The `max_dd` value: drawdown scaled by the unit mode, rounded to 2. -/
def maxDDOf (dates : List ℤ) (pnl : List ℚ) (t : Target) : ℚ :=
  pyRound 2 (drawdownVal (pnlNz dates pnl) * scaleOf t)

/-- The `avg_win` value: mean of the positive daily bars, scaled and
rounded, with the explicit 0 override when none exist. -/
def avgWinOf (dates : List ℤ) (pnl : List ℚ) (t : Target) : ℚ :=
  if (dailyBars dates pnl).any (fun x => decide (0 < x)) then
    pyRound 3 (mean ((dailyBars dates pnl).filter (fun x => decide (0 < x))) * scaleOf t)
  else 0

/-- The `avg_loss` value: mean of the negative daily bars, scaled and
rounded, with the explicit 0 override when none exist. -/
def avgLossOf (dates : List ℤ) (pnl : List ℚ) (t : Target) : ℚ :=
  if (dailyBars dates pnl).any (fun x => decide (x < 0)) then
    pyRound 3 (mean ((dailyBars dates pnl).filter (fun x => decide (x < 0))) * scaleOf t)
  else 0

/-- Assembly of the normal-path result row (the `result` dict at the end
of `stat_ts`), in source order. -/
def buildRow (sq : ℚ → ℚ) (dates : List ℤ) (pnl : List ℚ)
    (test_period : ℤ) (idx : ℤ) (target_type : Target) (days_in_year : ℤ) : ResultRow :=
  { index := idx
    cols :=
      [("sharpe", some (sharpeOf sq dates pnl days_in_year)),
       ("sortino", some (sortinoOf sq dates pnl days_in_year)),
       ("Kelly, %", some (kellyOf dates pnl)),
       ("trades/year", some (PyFloat.fin (tradesOf pnl test_period days_in_year : ℚ))),
       ("return/year, " ++ unitOf target_type,
        some (PyFloat.fin (pyRound 2 (totalReturn pnl test_period days_in_year * scaleOf target_type)))),
       ("return/trade, " ++ unitOf target_type,
        some (PyFloat.fin (pyRound 3 (returnPerTrade pnl * scaleOf target_type)))),
       ("PF", some (pyRoundF 2 (profitFactor dates pnl))),
       ("Win, %", some (pyRoundF 2 (mulConstF (winPct dates pnl) 100))),
       ("Avg Win, " ++ unitOf target_type, some (PyFloat.fin (avgWinOf dates pnl target_type))),
       ("Avg Loss, " ++ unitOf target_type, some (PyFloat.fin (avgLossOf dates pnl target_type))),
       ("Max wins in row", some (PyFloat.fin (calcConsecutive (pnlNz dates pnl) true : ℚ))),
       ("Max losses in row", some (PyFloat.fin (calcConsecutive (pnlNz dates pnl) false : ℚ))),
       ("Max DD, " ++ unitOf target_type, some (PyFloat.fin (maxDDOf dates pnl target_type)))] }

/-- Embedding of `stat_ts`. Error cases, in the order the Python code hits
them: `days_in_year / test_period` raises `ZeroDivisionError` on a zero
period; the DataFrame constructor raises `ValueError` on a length
mismatch; `np.min` raises `ValueError` when every daily bar is zero (the
non-zero daily bar series is empty). -/
def stat_ts (sq : ℚ → ℚ) (dates : List ℤ) (pnl : List ℚ)
    (test_period : ℤ) (idx : ℤ) (target_type : Target) (days_in_year : ℤ) :
    Except String ResultRow :=
  if pnl.length ≤ 1 then Except.ok (emptyRow idx target_type)
  else if test_period = 0 then Except.error "ZeroDivisionError: division by zero"
  else if dates.length ≠ pnl.length then
    Except.error "ValueError: Length of values does not match length of index"
  else if pnlNz dates pnl = [] then
    Except.error "ValueError: zero-size array to reduction operation minimum"
  else Except.ok (buildRow sq dates pnl test_period idx target_type days_in_year)

/-- True on a successful (non-raising) call. -/
def isOkE (e : Except String ResultRow) : Bool :=
  match e with
  | Except.ok _ => true
  | Except.error _ => false

/-- The value of column `n` of a successful call, `none` if the call
failed, the column is missing, or the column is unset. -/
def colOf (e : Except String ResultRow) (n : String) : Option PyFloat :=
  match e with
  | Except.ok r =>
    match r.cols.lookup n with
    | some v => v
    | none => none
  | Except.error _ => none

/-- Whether some column of the row holds a NaN. -/
def rowHasNan (r : ResultRow) : Bool :=
  r.cols.any (fun c => decide (c.2 = some PyFloat.nan))

/-!
Lemmas about the streak counter.
-/

lemma matchPrefixLen_cons_pos (p : ℚ → Bool) (a : ℚ) (t : List ℚ) (h : p a = true) :
    matchPrefixLen p (a :: t) = matchPrefixLen p t + 1 := by
  simp [matchPrefixLen, List.takeWhile_cons, h]

lemma matchPrefixLen_le_longestRun (p : ℚ → Bool) : ∀ l : List ℚ,
    matchPrefixLen p l ≤ longestRun p l
  | [] => Nat.le_refl 0
  | _ :: _ => le_max_left _ _

lemma headMatch_false_prefixLen (p : ℚ → Bool) (l : List ℚ)
    (h : headMatch p l = false) : matchPrefixLen p l = 0 := by
  cases l with
  | nil => rfl
  | cons a t =>
    simp only [headMatch] at h
    simp [matchPrefixLen, List.takeWhile_cons, h]

lemma runAux_closed_form (p : ℚ → Bool) : ∀ (l : List ℚ) (c : ℕ),
    runAux p l c
      = max (if headMatch p l then c + matchPrefixLen p l else 0) (longestRun p l) := by
  intro l
  induction l with
  | nil => intro c; simp [runAux, headMatch, longestRun]
  | cons a t ih =>
    intro c
    rw [longestRun]
    cases h : p a with
    | false =>
      have hpl : matchPrefixLen p (a :: t) = 0 := by
        simp [matchPrefixLen, List.takeWhile_cons, h]
      have hKle := matchPrefixLen_le_longestRun p t
      have e1 : runAux p (a :: t) c = runAux p t 0 := by simp [runAux, h]
      have e2 : headMatch p (a :: t) = false := by simp [headMatch, h]
      rw [e1, ih 0, e2, hpl]
      cases ht : headMatch p t with
      | false =>
        rw [headMatch_false_prefixLen p t ht]
        simp
      | true => simp; omega
    | true =>
      have hpl := matchPrefixLen_cons_pos p a t h
      have hKle := matchPrefixLen_le_longestRun p t
      have e1 : runAux p (a :: t) c = max (c + 1) (runAux p t (c + 1)) := by
        simp [runAux, h]
      have e2 : headMatch p (a :: t) = true := by simp [headMatch, h]
      rw [e1, ih (c + 1), e2, hpl]
      cases ht : headMatch p t with
      | false =>
        rw [headMatch_false_prefixLen p t ht]
        simp
        omega
      | true => simp; omega

lemma foldl_streak (p : ℚ → Bool) : ∀ (l : List ℚ) (b c : ℕ),
    (l.foldl (fun s v => if p v then (max s.1 (s.2 + 1), s.2 + 1) else (s.1, 0))
      ((b, c) : ℕ × ℕ)).1 = max b (runAux p l c) := by
  intro l
  induction l with
  | nil => intro b c; simp [runAux]
  | cons a t ih =>
    intro b c
    by_cases h : p a
    · have e1 : runAux p (a :: t) c = max (c + 1) (runAux p t (c + 1)) := by
        simp [runAux, h]
      simp only [List.foldl_cons, h, if_true, e1]
      rw [ih (max b (c + 1)) (c + 1)]
      omega
    · have e1 : runAux p (a :: t) c = runAux p t 0 := by simp [runAux, h]
      simp only [List.foldl_cons, h, Bool.false_eq_true, if_false, e1]
      rw [ih b 0]

/-!
Lemmas about the drawdown computation.
-/

lemma mem_zip_runningMax : ∀ (t : List ℚ) (m : ℚ) (x : ℚ × ℚ),
    x ∈ t.zip (runningMax m t) → x.1 ≤ x.2 := by
  intro t
  induction t with
  | nil => intro m x hx; simp at hx
  | cons a s ih =>
    intro m x hx
    rw [runningMax, List.zip_cons_cons] at hx
    rcases List.mem_cons.mp hx with h | h
    · rw [h]; exact le_max_right m a
    · exact ih (max m a) x h

lemma mem_zip_runMax (l : List ℚ) (x : ℚ × ℚ) (hx : x ∈ l.zip (runMax l)) :
    x.1 ≤ x.2 := by
  cases l with
  | nil => simp [runMax] at hx
  | cons a t =>
    rw [runMax] at hx
    exact mem_zip_runningMax (a :: t) a x hx

lemma ddList_nonpos (l : List ℚ) : ∀ x ∈ ddList l, x ≤ 0 := by
  intro x hx
  unfold ddList at hx
  rcases List.mem_map.mp hx with ⟨p, hp, hpx⟩
  have h := mem_zip_runMax (cumsum l) p hp
  rw [← hpx]
  linarith

lemma foldl_min_nonpos : ∀ (t : List ℚ) (a : ℚ),
    a ≤ 0 → (∀ x ∈ t, x ≤ 0) → t.foldl min a ≤ 0 := by
  intro t
  induction t with
  | nil => intro a ha _; simpa using ha
  | cons b s ih =>
    intro a ha hall
    simp only [List.foldl_cons]
    refine ih (min a b) (le_trans (min_le_left a b) ha) ?_
    intro x hx
    exact hall x (List.mem_cons_of_mem b hx)

lemma drawdownVal_nonpos (l : List ℚ) : drawdownVal l ≤ 0 := by
  unfold drawdownVal
  cases hd : ddList l with
  | nil => simp [listMin, hd]
  | cons a t =>
    simp only [listMin, hd]
    have hall : ∀ x ∈ ddList l, x ≤ 0 := ddList_nonpos l
    rw [hd] at hall
    refine foldl_min_nonpos t a (hall a (by simp)) ?_
    intro x hx
    exact hall x (List.mem_cons_of_mem a hx)

/-!
Lemma relating per-day accumulation to filtered summation.
-/

lemma foldl_if_add (d : ℤ) : ∀ (l : List (ℤ × ℚ)) (q : ℚ),
    l.foldl (fun acc p => if p.1 = d then acc + p.2 else acc) q
      = q + ((l.filter (fun p => decide (p.1 = d))).map Prod.snd).sum := by
  intro l
  induction l with
  | nil => intro q; simp
  | cons a s ih =>
    intro q
    simp only [List.foldl_cons, List.filter_cons]
    by_cases h : a.1 = d
    · have hq : decide (a.1 = d) = true := by simp [h]
      rw [if_pos h, ih (q + a.2), hq]
      simp
      ring
    · have hq : decide (a.1 = d) = false := by simp [h]
      rw [if_neg h, ih q, hq]
      simp

/-!
Inversion of the aggregator's guard structure, and non-NaN helpers.
-/

lemma stat_ts_ok_inv (sq : ℚ → ℚ) (dates : List ℤ) (pnl : List ℚ)
    (tp i : ℤ) (t : Target) (dy : ℤ)
    (hlen : 1 < pnl.length)
    (hok : isOkE (stat_ts sq dates pnl tp i t dy) = true) :
    stat_ts sq dates pnl tp i t dy = Except.ok (buildRow sq dates pnl tp i t dy)
      ∧ tp ≠ 0 ∧ dates.length = pnl.length ∧ pnlNz dates pnl ≠ [] := by
  unfold stat_ts at hok ⊢
  rw [if_neg (by omega)] at hok ⊢
  by_cases h2 : tp = 0
  · rw [if_pos h2] at hok
    simp [isOkE] at hok
  · rw [if_neg h2] at hok ⊢
    by_cases h3 : dates.length ≠ pnl.length
    · rw [if_pos h3] at hok
      simp [isOkE] at hok
    · rw [if_neg h3] at hok ⊢
      by_cases h4 : pnlNz dates pnl = []
      · rw [if_pos h4] at hok
        simp [isOkE] at hok
      · rw [if_neg h4]
        exact ⟨rfl, h2, Classical.not_not.mp h3, h4⟩

lemma nzDays_ne_zero (dates : List ℤ) (pnl : List ℚ)
    (h : pnlNz dates pnl ≠ []) : nzDaysOf dates pnl ≠ 0 := by
  unfold pnlNz at h
  unfold nzDaysOf
  rw [List.countP_eq_length_filter]
  intro h0
  exact h (List.length_eq_zero.mp h0)

lemma sharpeOf_ne_nan (sq : ℚ → ℚ) (dates : List ℤ) (pnl : List ℚ) (dy : ℤ) :
    sharpeOf sq dates pnl dy ≠ PyFloat.nan := by
  unfold sharpeOf
  split <;> simp

lemma sortinoOf_ne_nan (sq : ℚ → ℚ) (dates : List ℤ) (pnl : List ℚ) (dy : ℤ) :
    sortinoOf sq dates pnl dy ≠ PyFloat.nan := by
  unfold sortinoOf
  split <;> simp

lemma profitFactor_ne_nan (dates : List ℤ) (pnl : List ℚ) :
    profitFactor dates pnl ≠ PyFloat.nan := by
  unfold profitFactor
  split <;> simp

lemma pyRoundF_ne_nan (n : ℕ) (x : PyFloat) (h : x ≠ PyFloat.nan) :
    pyRoundF n x ≠ PyFloat.nan := by
  cases x <;> simp_all [pyRoundF]

lemma mulConstF_ne_nan (x : PyFloat) (c : ℚ) (h : x ≠ PyFloat.nan) :
    mulConstF x c ≠ PyFloat.nan := by
  cases x <;> simp_all [mulConstF]

lemma winPct_fin (dates : List ℤ) (pnl : List ℚ) (h : nzDaysOf dates pnl ≠ 0) :
    winPct dates pnl = PyFloat.fin (dailyWinPct dates pnl) := by
  unfold winPct
  rw [if_neg h]

lemma winPct_ne_nan (dates : List ℤ) (pnl : List ℚ) (h : nzDaysOf dates pnl ≠ 0) :
    winPct dates pnl ≠ PyFloat.nan := by
  rw [winPct_fin dates pnl h]
  simp

lemma kellyOf_ne_nan (dates : List ℤ) (pnl : List ℚ) (h : nzDaysOf dates pnl ≠ 0) :
    kellyOf dates pnl ≠ PyFloat.nan := by
  unfold kellyOf
  split
  · simp
  · rw [winPct_fin dates pnl h]
    cases hpf : profitFactor dates pnl with
    | fin q => simp
    | inf => simp
    | nan => exact absurd hpf (profitFactor_ne_nan dates pnl)

/-!
Evaluation lemmas for concrete inputs (the rational arithmetic is not
kernel-reducible, so concrete runs are computed by rewriting).
-/

lemma dailyBars_pair (x y : ℚ) : dailyBars [0, 1] [x, y] = [x, y] := by
  rw [show dailyBars [0, 1] [x, y]
      = (List.range 2).map (fun k => sumOnDay [0, 1] [x, y] (0 + (k : ℤ))) from rfl]
  norm_num [sumOnDay, List.range_succ]

lemma dailyBars_gap : dailyBars [0, 2] [1, 1] = [1, 0, 1] := by
  rw [show dailyBars [0, 2] [1, 1]
      = (List.range 3).map (fun k => sumOnDay [0, 2] [1, 1] (0 + (k : ℤ))) from rfl]
  norm_num [sumOnDay, List.range_succ]

lemma dailyBars_week : dailyBars [0, 1, 2, 3, 4] [1, -1, 1, 1, -1] = [1, -1, 1, 1, -1] := by
  rw [show dailyBars [0, 1, 2, 3, 4] [1, -1, 1, 1, -1]
      = (List.range 5).map
          (fun k => sumOnDay [0, 1, 2, 3, 4] [1, -1, 1, 1, -1] (0 + (k : ℤ))) from rfl]
  norm_num [sumOnDay, List.range_succ]

/-!
Column access on an assembled row.
-/

lemma colOf_sharpe (sq : ℚ → ℚ) (dates : List ℤ) (pnl : List ℚ) (tp i : ℤ)
    (t : Target) (dy : ℤ) :
    colOf (Except.ok (buildRow sq dates pnl tp i t dy)) "sharpe"
      = some (sharpeOf sq dates pnl dy) := rfl

lemma colOf_kelly (sq : ℚ → ℚ) (dates : List ℤ) (pnl : List ℚ) (tp i : ℤ)
    (t : Target) (dy : ℤ) :
    colOf (Except.ok (buildRow sq dates pnl tp i t dy)) "Kelly, %"
      = some (kellyOf dates pnl) := rfl

lemma colOf_trades (sq : ℚ → ℚ) (dates : List ℤ) (pnl : List ℚ) (tp i : ℤ)
    (t : Target) (dy : ℤ) :
    colOf (Except.ok (buildRow sq dates pnl tp i t dy)) "trades/year"
      = some (PyFloat.fin (tradesOf pnl tp dy : ℚ)) := rfl

lemma colOf_pf (sq : ℚ → ℚ) (dates : List ℤ) (pnl : List ℚ) (tp i : ℤ)
    (t : Target) (dy : ℤ) :
    colOf (Except.ok (buildRow sq dates pnl tp i t dy)) "PF"
      = some (pyRoundF 2 (profitFactor dates pnl)) := by
  cases t <;> rfl

lemma colOf_return_year (sq : ℚ → ℚ) (dates : List ℤ) (pnl : List ℚ) (tp i : ℤ)
    (t : Target) (dy : ℤ) :
    colOf (Except.ok (buildRow sq dates pnl tp i t dy)) ("return/year, " ++ unitOf t)
      = some (PyFloat.fin (pyRound 2 (totalReturn pnl tp dy * scaleOf t))) := by
  cases t <;> rfl

lemma colOf_return_trade (sq : ℚ → ℚ) (dates : List ℤ) (pnl : List ℚ) (tp i : ℤ)
    (t : Target) (dy : ℤ) :
    colOf (Except.ok (buildRow sq dates pnl tp i t dy)) ("return/trade, " ++ unitOf t)
      = some (PyFloat.fin (pyRound 3 (returnPerTrade pnl * scaleOf t))) := by
  cases t <;> rfl

/-!
Claim theorems.
-/

/-- C8: the streak counter `_calc_consecutive` returns the length of the
longest run of consecutive values matching the requested sign (strictly
positive when `positive`, strictly negative otherwise): for every finite
numeric sequence it equals the specification `longestRun`, which is 0 on
the empty sequence and is broken by any non-matching value, zero
included. -/
theorem C8_calc_consecutive_correct (series : List ℚ) (positive : Bool) :
    calcConsecutive series positive = longestRun (signMatch positive) series := by
  unfold calcConsecutive
  rw [foldl_streak (signMatch positive) series 0 0,
    runAux_closed_form (signMatch positive) series 0]
  have hKle := matchPrefixLen_le_longestRun (signMatch positive) series
  cases ht : headMatch (signMatch positive) series with
  | false => simp
  | true => simp; omega

/-- C7: whenever the aggregator returns successfully, the maximum-drawdown
value before unit scaling — the minimum over the non-zero daily bars of
the cumulative sum minus its running maximum — is at most 0. -/
theorem C7_drawdown_nonpos (sq : ℚ → ℚ) (dates : List ℤ) (pnl : List ℚ)
    (tp i : ℤ) (t : Target) (dy : ℤ)
    (_hok : isOkE (stat_ts sq dates pnl tp i t dy) = true) :
    drawdownVal (pnlNz dates pnl) ≤ 0 :=
  drawdownVal_nonpos (pnlNz dates pnl)

/-- Witness for C7 at a concrete input. -/
theorem C7_drawdown_nonpos_witness :
    isOkE (stat_ts ratSqrt [0, 1] [3, -1] 2 0 Target.pct 365) = true ∧
    drawdownVal (pnlNz [0, 1] [3, -1]) ≤ 0 :=
  ⟨by norm_num [stat_ts, isOkE, pnlNz, dailyBars_pair, List.cons_ne_nil],
   C7_drawdown_nonpos ratSqrt [0, 1] [3, -1] 2 0 Target.pct 365
     (by norm_num [stat_ts, isOkE, pnlNz, dailyBars_pair, List.cons_ne_nil])⟩

/-- C3 counterexample: with entries on days 0 and 2 only, the resampled
daily series the code computes has a zero bar for the absent day 1,
whereas grouping by the day keys present in the input gives two bars. -/
theorem C3_counterexample :
    dailyBars [0, 2] [1, 1] ≠ specDailyGroups [0, 2] [1, 1] ∧
    dailyBars [0, 2] [1, 1] = [1, 0, 1] ∧
    specDailyGroups [0, 2] [1, 1] = [1, 1] := by
  have h2 : specDailyGroups [0, 2] [1, 1] = [1, 1] := by
    norm_num [specDailyGroups, dayKeys, insertSortedNoDup]
  refine ⟨?_, dailyBars_gap, h2⟩
  rw [dailyBars_gap, h2]
  simp

/-- C3 as amended: the daily bar series equals the grouped-by-day sums in
chronological order over every calendar day from the minimum to the
maximum date, with a zero bar for each day absent from the input. -/
theorem C3_daily_grouping (dates : List ℤ) (pnl : List ℚ) :
    dailyBars dates pnl = specDailyFilled dates pnl := by
  cases dates with
  | nil => rfl
  | cons d ds =>
    show (List.range (ds.foldl max d - ds.foldl min d + 1).toNat).map
        (fun k => sumOnDay (d :: ds) pnl (ds.foldl min d + (k : ℤ)))
      = (List.range (ds.foldl max d - ds.foldl min d + 1).toNat).map
        (fun k =>
          ((((d :: ds).zip pnl).filter
              (fun p => decide (p.1 = ds.foldl min d + (k : ℤ)))).map Prod.snd).sum)
    refine List.map_congr_left ?_
    intro k _
    unfold sumOnDay
    rw [foldl_if_add (ds.foldl min d + (k : ℤ)) ((d :: ds).zip pnl) 0]
    rw [zero_add]

/-- C1 counterexample: for `pnl = [1, 1]` on two days (no negative daily
bar, more than one element) the profit factor is infinite but the
`Kelly, %` field is 100, not 0: Python's `if profit_factor` guard treats
infinity as truthy, so the Kelly formula is evaluated with
`(1 - win_pct)/inf = 0`. -/
theorem C1_counterexample :
    colOf (stat_ts ratSqrt [0, 1] [1, 1] 2 0 Target.pct 365) "PF" = some PyFloat.inf ∧
    colOf (stat_ts ratSqrt [0, 1] [1, 1] 2 0 Target.pct 365) "Kelly, %"
      = some (PyFloat.fin 100) ∧
    (PyFloat.fin 100 : PyFloat) ≠ PyFloat.fin 0 := by
  have hok : stat_ts ratSqrt [0, 1] [1, 1] 2 0 Target.pct 365
      = Except.ok (buildRow ratSqrt [0, 1] [1, 1] 2 0 Target.pct 365) := by
    norm_num [stat_ts, pnlNz, dailyBars_pair, List.cons_ne_nil]
  have hpf : profitFactor [0, 1] [1, 1] = PyFloat.inf := by
    norm_num [profitFactor, negativeSum, dailyBars_pair]
  refine ⟨?_, ?_, ?_⟩
  · rw [hok, colOf_pf, hpf]
    rfl
  · rw [hok, colOf_kelly]
    have hk : kellyOf [0, 1] [1, 1] = PyFloat.fin 100 := by
      unfold kellyOf
      rw [hpf, if_neg (by decide)]
      norm_num [winPct, nzDaysOf, dailyWinPct, winDaysOf, dailyBars_pair,
        pyRound, roundHalfEven]
    rw [hk]
  · simp

/-- C1 as amended: with more than one pnl element, no negative daily bar
and a successful call, the `PF` field is infinity (as claimed), but the
`Kelly, %` field equals `round(win_pct * 100, 2)` — the Kelly formula
with the `(1 - win_pct)/profit_factor` term evaluating to 0 — which is 0
only when there are no winning days. -/
theorem C1_pf_kelly (sq : ℚ → ℚ) (dates : List ℤ) (pnl : List ℚ) (tp i : ℤ)
    (t : Target) (dy : ℤ)
    (hlen : 1 < pnl.length)
    (hpos : ∀ b ∈ dailyBars dates pnl, 0 ≤ b)
    (hok : isOkE (stat_ts sq dates pnl tp i t dy) = true) :
    colOf (stat_ts sq dates pnl tp i t dy) "PF" = some PyFloat.inf ∧
    colOf (stat_ts sq dates pnl tp i t dy) "Kelly, %"
      = some (PyFloat.fin (pyRound 2 (dailyWinPct dates pnl * 100))) := by
  obtain ⟨heq, -, -, hnz⟩ := stat_ts_ok_inv sq dates pnl tp i t dy hlen hok
  have hneg : negativeSum dates pnl = 0 := by
    unfold negativeSum
    have hfil : (dailyBars dates pnl).filter (fun x => decide (x < 0)) = [] := by
      rw [List.filter_eq_nil_iff]
      intro a ha
      simp only [decide_eq_true_eq]
      exact not_lt.mpr (hpos a ha)
    rw [hfil, List.sum_nil]
  have hpf : profitFactor dates pnl = PyFloat.inf := by
    unfold profitFactor
    rw [if_neg (fun hc => hc hneg)]
  have hnzd := nzDays_ne_zero dates pnl hnz
  have hk : kellyOf dates pnl = PyFloat.fin (pyRound 2 (dailyWinPct dates pnl * 100)) := by
    unfold kellyOf
    rw [hpf, winPct_fin dates pnl hnzd]
    simp
  rw [heq, colOf_pf, colOf_kelly, hpf, hk]
  exact ⟨rfl, rfl⟩

/-- Witness for the amended C1 at a concrete all-winning input. -/
theorem C1_pf_kelly_witness :
    (1 < ([(2 : ℚ), 3]).length) ∧
    (colOf (stat_ts ratSqrt [0, 1] [2, 3] 2 0 Target.pct 365) "PF" = some PyFloat.inf ∧
     colOf (stat_ts ratSqrt [0, 1] [2, 3] 2 0 Target.pct 365) "Kelly, %"
       = some (PyFloat.fin (pyRound 2 (dailyWinPct [0, 1] [2, 3] * 100)))) :=
  ⟨by norm_num,
   C1_pf_kelly ratSqrt [0, 1] [2, 3] 2 0 Target.pct 365 (by norm_num)
     (by norm_num [dailyBars_pair])
     (by norm_num [stat_ts, isOkE, pnlNz, dailyBars_pair, List.cons_ne_nil])⟩

/-- C2 counterexample: for `pnl = [0, 0]` (more than one element, every
daily bar zero) the call fails — `np.min` over the empty non-zero daily
bar series raises `ValueError` — and the intermediate `win_pct` is NaN
(`0/0`), contradicting the claim that the call never raises and never
produces NaN. -/
theorem C2_counterexample :
    isOkE (stat_ts ratSqrt [0, 1] [0, 0] 2 0 Target.pct 365) = false ∧
    winPct [0, 1] [0, 0] = PyFloat.nan := by
  constructor
  · norm_num [stat_ts, isOkE, pnlNz, dailyBars_pair]
  · norm_num [winPct, nzDaysOf, dailyBars_pair]

/-- C2 as amended: with more than one pnl element, matching lengths, a
non-zero period and at least one non-zero daily bar, the call returns
successfully and no field of the record is NaN; the degenerate divisors
(zero standard deviation, zero negative sum, zero non-zero count) are
individually guarded. When every daily bar is zero, the call instead
raises (minimum of an empty array), as the counterexample shows. -/
theorem C2_no_nan (sq : ℚ → ℚ) (dates : List ℤ) (pnl : List ℚ) (tp i : ℤ)
    (t : Target) (dy : ℤ)
    (hlen : 1 < pnl.length)
    (hlens : dates.length = pnl.length)
    (htp : tp ≠ 0)
    (hnz : (dailyBars dates pnl).any (fun b => decide (b ≠ 0)) = true) :
    stat_ts sq dates pnl tp i t dy = Except.ok (buildRow sq dates pnl tp i t dy) ∧
    rowHasNan (buildRow sq dates pnl tp i t dy) = false := by
  have hfil : pnlNz dates pnl ≠ [] := by
    unfold pnlNz
    intro h0
    rcases List.any_eq_true.mp hnz with ⟨b, hb, hbne⟩
    have hmem : b ∈ (dailyBars dates pnl).filter (fun x => decide (x ≠ 0)) :=
      List.mem_filter.mpr ⟨hb, hbne⟩
    rw [h0] at hmem
    simp at hmem
  have hnzd := nzDays_ne_zero dates pnl hfil
  constructor
  · unfold stat_ts
    rw [if_neg (by omega), if_neg htp, if_neg (fun hc => hc hlens), if_neg hfil]
  · unfold rowHasNan buildRow
    rw [List.any_eq_false]
    intro c hc
    simp only [List.mem_cons, List.not_mem_nil, or_false] at hc
    rcases hc with rfl | rfl | rfl | rfl | rfl | rfl | rfl | rfl | rfl | rfl | rfl | rfl | rfl
    · simp [sharpeOf_ne_nan]
    · simp [sortinoOf_ne_nan]
    · simp [kellyOf_ne_nan dates pnl hnzd]
    · simp
    · simp
    · simp
    · simp [pyRoundF_ne_nan 2 (profitFactor dates pnl) (profitFactor_ne_nan dates pnl)]
    · simp [pyRoundF_ne_nan 2 (mulConstF (winPct dates pnl) 100)
        (mulConstF_ne_nan (winPct dates pnl) 100 (winPct_ne_nan dates pnl hnzd))]
    · simp
    · simp
    · simp
    · simp
    · simp

/-- Witness for the amended C2 at a concrete input with one winning and
one losing day. -/
theorem C2_no_nan_witness :
    ((dailyBars [0, 1] [1, -1]).any (fun b => decide (b ≠ 0)) = true) ∧
    (stat_ts ratSqrt [0, 1] [1, -1] 2 0 Target.pct 365
        = Except.ok (buildRow ratSqrt [0, 1] [1, -1] 2 0 Target.pct 365) ∧
     rowHasNan (buildRow ratSqrt [0, 1] [1, -1] 2 0 Target.pct 365) = false) :=
  ⟨by norm_num [dailyBars_pair],
   C2_no_nan ratSqrt [0, 1] [1, -1] 2 0 Target.pct 365 (by norm_num) (by norm_num)
     (by norm_num) (by norm_num [dailyBars_pair])⟩

/-- C4: on every successful non-degenerate call, the `sharpe` field equals
the mean of the daily bars divided by their population standard deviation,
multiplied by the square root of `days_in_year` and rounded to 3 decimals;
and whenever that standard deviation is exactly zero, the field is
positive infinity rather than an error. -/
theorem C4_sharpe (sq : ℚ → ℚ) (dates : List ℤ) (pnl : List ℚ) (tp i : ℤ)
    (t : Target) (dy : ℤ)
    (hlen : 1 < pnl.length)
    (hok : isOkE (stat_ts sq dates pnl tp i t dy) = true) :
    (dailyStd sq dates pnl ≠ 0 →
      colOf (stat_ts sq dates pnl tp i t dy) "sharpe"
        = some (PyFloat.fin (pyRound 3
            (mean (dailyBars dates pnl) / dailyStd sq dates pnl * sq (dy : ℚ))))) ∧
    (dailyStd sq dates pnl = 0 →
      colOf (stat_ts sq dates pnl tp i t dy) "sharpe" = some PyFloat.inf) := by
  obtain ⟨heq, -, -, -⟩ := stat_ts_ok_inv sq dates pnl tp i t dy hlen hok
  rw [heq, colOf_sharpe]
  constructor
  · intro h
    unfold sharpeOf
    rw [if_pos h]
  · intro h
    unfold sharpeOf
    rw [if_neg (fun hc => hc h)]

/-- Witness for C4 at a concrete input whose daily variance is 1. -/
theorem C4_sharpe_witness :
    (1 < ([(1 : ℚ), 3]).length) ∧
    dailyStd ratSqrt [0, 1] [1, 3] ≠ 0 ∧
    colOf (stat_ts ratSqrt [0, 1] [1, 3] 2 0 Target.pct 365) "sharpe"
      = some (PyFloat.fin (pyRound 3
          (mean (dailyBars [0, 1] [1, 3]) / dailyStd ratSqrt [0, 1] [1, 3]
            * ratSqrt ((365 : ℤ) : ℚ)))) :=
  ⟨by norm_num,
   by norm_num [dailyStd, popVar, mean, dailyBars_pair, ratSqrt],
   (C4_sharpe ratSqrt [0, 1] [1, 3] 2 0 Target.pct 365 (by norm_num)
       (by norm_num [stat_ts, isOkE, pnlNz, dailyBars_pair, List.cons_ne_nil])).1
     (by norm_num [dailyStd, popVar, mean, dailyBars_pair, ratSqrt])⟩

/-- C5: for a pnl sequence with at most one element the call succeeds and
returns the empty row keyed by the supplied id, with all 13 fields present
but unset, the field names carrying the unit-mode suffix, and the same
name schema as the normal path produces. -/
theorem C5_empty_schema (sq : ℚ → ℚ) (dates dates₂ : List ℤ) (pnl pnl₂ : List ℚ)
    (tp tp₂ i : ℤ) (t : Target) (dy dy₂ : ℤ)
    (hlen : pnl.length ≤ 1) :
    stat_ts sq dates pnl tp i t dy = Except.ok (emptyRow i t) ∧
    (emptyRow i t).index = i ∧
    (emptyRow i t).cols = (colNames t).map (fun n => (n, (none : Option PyFloat))) ∧
    (buildRow sq dates₂ pnl₂ tp₂ i t dy₂).cols.map Prod.fst
      = (emptyRow i t).cols.map Prod.fst := by
  refine ⟨?_, rfl, ?_, ?_⟩
  · unfold stat_ts
    rw [if_pos hlen]
  · cases t <;> rfl
  · cases t <;> rfl

/-- Witness for C5 with an empty pnl sequence, against an arbitrary
normal-path row. -/
theorem C5_empty_schema_witness :
    (([] : List ℚ).length ≤ 1) ∧
    (stat_ts ratSqrt [] [] 0 9 Target.pct 365 = Except.ok (emptyRow 9 Target.pct) ∧
     (emptyRow 9 Target.pct).index = 9 ∧
     (emptyRow 9 Target.pct).cols
       = (colNames Target.pct).map (fun n => (n, (none : Option PyFloat))) ∧
     (buildRow ratSqrt [0, 1] [1, 2] 7 9 Target.pct 365).cols.map Prod.fst
       = (emptyRow 9 Target.pct).cols.map Prod.fst) :=
  ⟨by norm_num,
   C5_empty_schema ratSqrt [] [0, 1] [] [1, 2] 0 7 9 Target.pct 365 365 (by norm_num)⟩

/-- C6: for `pnl = [1, -1, 1, 1, -1]` on 5 business days with
`test_period = 5`, `days_in_year = 365` and nominal units, the result has
`trades/year = 365`, `return/year, pp = 73` and `return/trade, pp = 1/5`. -/
theorem C6_scenario :
    colOf (stat_ts ratSqrt [0, 1, 2, 3, 4] [1, -1, 1, 1, -1] 5 0 Target.nom 365) "trades/year"
      = some (PyFloat.fin 365) ∧
    colOf (stat_ts ratSqrt [0, 1, 2, 3, 4] [1, -1, 1, 1, -1] 5 0 Target.nom 365) "return/year, pp"
      = some (PyFloat.fin 73) ∧
    colOf (stat_ts ratSqrt [0, 1, 2, 3, 4] [1, -1, 1, 1, -1] 5 0 Target.nom 365) "return/trade, pp"
      = some (PyFloat.fin (1 / 5)) := by
  have hok : stat_ts ratSqrt [0, 1, 2, 3, 4] [1, -1, 1, 1, -1] 5 0 Target.nom 365
      = Except.ok (buildRow ratSqrt [0, 1, 2, 3, 4] [1, -1, 1, 1, -1] 5 0 Target.nom 365) := by
    norm_num [stat_ts, pnlNz, dailyBars_week, List.cons_ne_nil]
  refine ⟨?_, ?_, ?_⟩
  · rw [hok, colOf_trades]
    norm_num [tradesOf, nNonzero, annualCoef, intTrunc]
  · rw [hok, show ("return/year, pp" : String) = "return/year, " ++ unitOf Target.nom from rfl,
      colOf_return_year]
    norm_num [totalReturn, annualCoef, scaleOf, pyRound, roundHalfEven]
  · rw [hok, show ("return/trade, pp" : String) = "return/trade, " ++ unitOf Target.nom from rfl,
      colOf_return_trade]
    norm_num [returnPerTrade, nNonzero, scaleOf, pyRound, roundHalfEven]

/-- C9: the aggregator is a pure function — two calls with equal arguments
produce equal (bit-identical) result records, with no state carried
between calls. -/
theorem C9_deterministic (sq : ℚ → ℚ) (dates dates₂ : List ℤ) (pnl pnl₂ : List ℚ)
    (tp tp₂ i i₂ : ℤ) (t t₂ : Target) (dy dy₂ : ℤ)
    (h1 : dates = dates₂) (h2 : pnl = pnl₂) (h3 : tp = tp₂) (h4 : i = i₂)
    (h5 : t = t₂) (h6 : dy = dy₂) :
    stat_ts sq dates pnl tp i t dy = stat_ts sq dates₂ pnl₂ tp₂ i₂ t₂ dy₂ := by
  rw [h1, h2, h3, h4, h5, h6]

/-- Witness for C9 at a concrete repeated call. -/
theorem C9_deterministic_witness :
    (([0] : List ℤ) = [0]) ∧
    stat_ts ratSqrt [0] [1] 1 0 Target.nom 365 = stat_ts ratSqrt [0] [1] 1 0 Target.nom 365 :=
  ⟨rfl,
   C9_deterministic ratSqrt [0] [0] [1] [1] 1 1 0 0 Target.nom Target.nom 365 365
     rfl rfl rfl rfl rfl rfl⟩

/-- C10: for a pnl sequence with at most one element the degenerate path
returns the empty row before any arithmetic on `test_period`,
`days_in_year` or `dates`: the result depends only on the row id and unit
mode, and the call succeeds even with a zero period and empty or
mismatched dates. -/
theorem C10_short_circuit (sq sq₂ : ℚ → ℚ) (dates dates₂ : List ℤ) (pnl : List ℚ)
    (tp tp₂ i : ℤ) (t : Target) (dy dy₂ : ℤ)
    (hlen : pnl.length ≤ 1) :
    stat_ts sq dates pnl tp i t dy = Except.ok (emptyRow i t) ∧
    stat_ts sq dates pnl tp i t dy = stat_ts sq₂ dates₂ pnl tp₂ i t dy₂ := by
  have h1 : stat_ts sq dates pnl tp i t dy = Except.ok (emptyRow i t) := by
    unfold stat_ts
    rw [if_pos hlen]
  have h2 : stat_ts sq₂ dates₂ pnl tp₂ i t dy₂ = Except.ok (emptyRow i t) := by
    unfold stat_ts
    rw [if_pos hlen]
  exact ⟨h1, h1.trans h2.symm⟩

/-- Witness for C10 with a one-element pnl, a zero period and mismatched
dates. -/
theorem C10_short_circuit_witness :
    (([(42 : ℚ)]).length ≤ 1) ∧
    (stat_ts ratSqrt [] [42] 0 5 Target.nom 365 = Except.ok (emptyRow 5 Target.nom) ∧
     stat_ts ratSqrt [] [42] 0 5 Target.nom 365
       = stat_ts (fun q => q) [7, 8] [42] 3 5 Target.nom 1) :=
  ⟨by norm_num,
   C10_short_circuit ratSqrt (fun q => q) [] [7, 8] [42] 0 3 5 Target.nom 365 1 (by norm_num)⟩

end StatTs
